import Mathlib

/-!
# MRS-Missions (Artemis I launch trajectory): verification of the mission-data
  schema and of the implied propagation-engine semantics

The repository ships the Artemis I mission configuration
(`Artemis_I_Launch_Trajectory_MRS_missiondata.py`): mission segments, force
settings, maneuver settings, two guidance angle tables, and staged vehicle
mass/throttle tables.  The simulation engine that consumes these tables
(the `myrocketsimulator` package) is not part of the repository; its
semantics are documented in the mission file's docstrings and in the
specification.  Components absent from the sources are therefore modelled
from the spec (each such definition says so in its doc comment); the data
tables themselves are embedded verbatim from the source file.

All quantities are rational (`ℚ`): the source tables hold exact decimal
literals, and the engine semantics at issue (table lookup, piecewise-linear
interpolation, summing of force terms, impulsive velocity updates) are
exact arithmetic on those values.
-/

namespace MRS

/-! ## Guidance frame IDs (module-level constants of the mission file) -/

def F_Earth_ENU_abs : ℕ := 1
def F_EFvel_Earth_ENU_delta : ℕ := 2
def F_SFvel_Earth_ENU_delta : ℕ := 3
def F_Launch_ENU_abs : ℕ := 4
def F_GCRF_abs : ℕ := 5
def F_VUW_abs : ℕ := 6
def F_VNB_abs : ℕ := 7
def F_none : ℕ := 10

/-- Modelled from the spec: the `guidanceData` docstring documents ten
manually set-up inertial frames `F_SM0_abs` – `F_SM9_abs` (e.g. for
REFSMMAT), but the mission file defines no integer constants for them;
they are modelled as the ten IDs `20`–`29`, disjoint from the shipped
constants — only their distinctness from the other frame IDs matters for
the pairing rules. -/
def F_SM0_abs : ℕ := 20

/-- Last of the ten modelled static-frame IDs; see `F_SM0_abs`. -/
def F_SM9_abs : ℕ := 29

/-! ## Guidance tables: data model and the shipped Artemis I tables -/

/-- One row of a guidance table: `{MET, frameID, angleValue}`. -/
structure GEntry where
  met : ℚ
  frameID : ℕ
  angle : ℚ
  deriving DecidableEq, Repr

/-- `gElevTab` of `guidanceData`, embedded verbatim from the mission file. -/
def gElevTab : List GEntry :=
  [ ⟨-10, F_Launch_ENU_abs, 0⟩,
    ⟨0, F_Launch_ENU_abs, 0⟩,
    ⟨6, F_Launch_ENU_abs, 2.3820⟩,
    ⟨16, F_EFvel_Earth_ENU_delta, 0⟩,
    ⟨23, F_EFvel_Earth_ENU_delta, 0⟩,
    ⟨132, F_Launch_ENU_abs, 56.578125⟩,
    ⟨142, F_Launch_ENU_abs, 95.09375⟩,
    ⟨485, F_SFvel_Earth_ENU_delta, 0⟩,
    ⟨500, F_SFvel_Earth_ENU_delta, 0⟩,
    ⟨5000, F_VNB_abs, -0.37037037⟩,
    ⟨5200, F_VNB_abs, 0.7777777⟩,
    ⟨6293, F_none, 0⟩ ]

/-- `gHeadTab` of `guidanceData`, embedded verbatim from the mission file. -/
def gHeadTab : List GEntry :=
  [ ⟨-10, F_Launch_ENU_abs, 0⟩,
    ⟨0, F_Launch_ENU_abs, 75⟩,
    ⟨6, F_Launch_ENU_abs, 75⟩,
    ⟨16, F_EFvel_Earth_ENU_delta, 0⟩,
    ⟨23, F_EFvel_Earth_ENU_delta, 0⟩,
    ⟨132, F_SFvel_Earth_ENU_delta, 0⟩,
    ⟨531.8, F_SFvel_Earth_ENU_delta, 0⟩,
    ⟨5000, F_VNB_abs, 0⟩,
    ⟨5200, F_VNB_abs, 0⟩,
    ⟨6293, F_none, 0⟩ ]

/-- A guidance track is well-formed when its MET column is strictly
increasing (§3 of the spec: "within each track MET strictly increasing"). -/
def sortedTrack (track : List GEntry) : Prop :=
  List.Chain' (fun a b => a.met < b.met) track

/-- Modelled from the spec: the documented "transition" entry types of the
Guidance Table Interpolator (§4.2), i.e. the delta frames, whose docstrings
describe consecutive same-frame entries as "align, then hold aligned". -/
def isTransitionFrame (f : ℕ) : Bool :=
  f = F_EFvel_Earth_ENU_delta || f = F_SFvel_Earth_ENU_delta

/-- The value `(frameID, angle)` that the active entry `a`, followed by the
next entry `b`, yields at query MET `t`: linear interpolation of the angle
over the entries' MET span when the two consecutive entries share a
transition frame, and the active entry's own value otherwise. -/
def entryValue (a b : GEntry) (t : ℚ) : ℕ × ℚ :=
  if a.frameID = b.frameID ∧ isTransitionFrame a.frameID then
    (a.frameID, a.angle + (b.angle - a.angle) * (t - a.met) / (b.met - a.met))
  else
    (a.frameID, a.angle)

/-- Modelled from the spec: the Guidance Table Interpolator's `lookup`
(§4.2), absent from the sources.  `gLookup e rest t` scans the track
`e :: rest` for the last entry whose MET ≤ `t` (step/hold), interpolating
the angle between consecutive same-frame transition-type entries; queries
before the first entry hold the first value, queries past the last entry
hold the last value, and the function is total (a lookup miss is never
fatal). -/
def gLookup : GEntry → List GEntry → ℚ → ℕ × ℚ
  | e, [], _ => (e.frameID, e.angle)
  | e, e2 :: rest, t =>
    if t < e2.met then
      if e.met ≤ t then entryValue e e2 t else (e.frameID, e.angle)
    else gLookup e2 rest t

/-- `lookup` on a whole (nonempty) track. -/
def lookupTrack (track : List GEntry) (t : ℚ) : ℕ × ℚ :=
  match track with
  | [] => (F_none, 0)
  | e :: rest => gLookup e rest t

/-! ## Generic facts about MET-sorted tables

Every table of the mission file is ordered by strictly increasing MET; the
lookup proofs for the guidance, throttle and segment tables all rest on the
same two facts about such chains. -/

lemma head_le_get_of_chainLt {α : Type*} (f : α → ℚ) (e : α) (rest : List α)
    (h : List.Chain' (fun a b => f a < f b) (e :: rest)) :
    ∀ (j : ℕ) (hj : j < (e :: rest).length), f e ≤ f ((e :: rest).get ⟨j, hj⟩) := by
  induction rest generalizing e with
  | nil =>
    intro j hj
    have hj0 : j = 0 := Nat.lt_one_iff.mp (by simpa using hj)
    subst hj0
    exact le_refl _
  | cons e2 rest ih =>
    intro j hj
    cases j with
    | zero => exact le_refl _
    | succ k =>
      have h2 := (List.chain'_cons.mp h).2
      have hlt : f e < f e2 := (List.chain'_cons.mp h).1
      exact le_trans (le_of_lt hlt) (ih e2 h2 k (by simpa using hj))

lemma head_le_getLast_of_chainLt {α : Type*} (f : α → ℚ) (e : α) (rest : List α)
    (h : List.Chain' (fun a b => f a < f b) (e :: rest)) :
    f e ≤ f ((e :: rest).getLast (List.cons_ne_nil e rest)) := by
  induction rest generalizing e with
  | nil => exact le_refl _
  | cons e2 rest ih =>
    have h2 := (List.chain'_cons.mp h).2
    have hlt : f e < f e2 := (List.chain'_cons.mp h).1
    exact le_trans (le_of_lt hlt) (ih e2 h2)

/-! ## C1: characterisation of the Guidance Table Interpolator -/

lemma head_met_le_get (e : GEntry) (rest : List GEntry) (h : sortedTrack (e :: rest)) :
    ∀ (j : ℕ) (hj : j < (e :: rest).length), e.met ≤ ((e :: rest).get ⟨j, hj⟩).met :=
  head_le_get_of_chainLt GEntry.met e rest h

lemma met_le_getLast (e : GEntry) (rest : List GEntry) (h : sortedTrack (e :: rest)) :
    e.met ≤ ((e :: rest).getLast (List.cons_ne_nil e rest)).met :=
  head_le_getLast_of_chainLt GEntry.met e rest h

lemma gLookup_before_first (e : GEntry) (rest : List GEntry) (h : sortedTrack (e :: rest))
    (t : ℚ) (ht : t < e.met) : gLookup e rest t = (e.frameID, e.angle) := by
  cases rest with
  | nil => rfl
  | cons e2 rest =>
    have h1 : e.met < e2.met := (List.chain'_cons.mp h).1
    have h2 : t < e2.met := lt_trans ht h1
    simp only [gLookup, if_pos h2, if_neg (not_le.mpr ht)]

lemma gLookup_after_last (e : GEntry) (rest : List GEntry) (h : sortedTrack (e :: rest))
    (t : ℚ) (ht : ((e :: rest).getLast (List.cons_ne_nil e rest)).met ≤ t) :
    gLookup e rest t =
      (((e :: rest).getLast (List.cons_ne_nil e rest)).frameID,
       ((e :: rest).getLast (List.cons_ne_nil e rest)).angle) := by
  induction rest generalizing e with
  | nil => rfl
  | cons e2 rest ih =>
    have h2 : sortedTrack (e2 :: rest) := (List.chain'_cons.mp h).2
    have hle : e2.met ≤ t :=
      le_trans (met_le_getLast e2 rest h2) ht
    show (if t < e2.met then _ else gLookup e2 rest t) = _
    rw [if_neg (not_lt.mpr hle)]
    exact ih e2 h2 ht

lemma gLookup_active (e : GEntry) (rest : List GEntry) (h : sortedTrack (e :: rest)) (t : ℚ) :
    ∀ (i : ℕ) (hi : i + 1 < (e :: rest).length),
      ((e :: rest).get ⟨i, by omega⟩).met ≤ t → t < ((e :: rest).get ⟨i + 1, hi⟩).met →
      gLookup e rest t = entryValue ((e :: rest).get ⟨i, by omega⟩) ((e :: rest).get ⟨i + 1, hi⟩) t := by
  induction rest generalizing e with
  | nil => intro i hi; simp at hi
  | cons e2 rest ih =>
    intro i hi h1 h2
    cases i with
    | zero =>
      have h1' : e.met ≤ t := h1
      have h2' : t < e2.met := h2
      show (if t < e2.met then if e.met ≤ t then entryValue e e2 t else _ else _) = _
      rw [if_pos h2', if_pos h1']
      rfl
    | succ k =>
      have h' : sortedTrack (e2 :: rest) := (List.chain'_cons.mp h).2
      have hi' : k + 1 < (e2 :: rest).length := by
        simpa using hi
      have hk0 : k < (e2 :: rest).length := by omega
      have hk : e2.met ≤ ((e2 :: rest).get ⟨k, hk0⟩).met :=
        head_met_le_get e2 rest h' k hk0
      have h1' : ((e2 :: rest).get ⟨k, hk0⟩).met ≤ t := h1
      have h2' : t < ((e2 :: rest).get ⟨k + 1, hi'⟩).met := h2
      have hnlt : ¬ t < e2.met := not_lt.mpr (le_trans hk h1')
      show (if t < e2.met then _ else gLookup e2 rest t) = _
      rw [if_neg hnlt]
      exact ih e2 h' k hi' h1' h2'

/-- C1: for every strictly-MET-sorted nonempty guidance track and every query
MET `t`, `lookup` returns the value of the last entry whose MET ≤ `t`
(step/hold), except that between two consecutive entries sharing a
transition-type frameID the angle is linearly interpolated over their MET
span (`entryValue`); queries before the first entry hold the first entry's
value and queries at or past the last entry hold the last entry's value, the
lookup being total (out-of-range queries are never fatal). -/
theorem guidance_lookup_spec (track : List GEntry) (hne : track ≠ [])
    (hs : sortedTrack track) (t : ℚ) :
    (t < (track.head hne).met →
      lookupTrack track t = ((track.head hne).frameID, (track.head hne).angle)) ∧
    ((track.getLast hne).met ≤ t →
      lookupTrack track t = ((track.getLast hne).frameID, (track.getLast hne).angle)) ∧
    (∀ (i : ℕ) (hi : i + 1 < track.length),
      (track.get ⟨i, by omega⟩).met ≤ t → t < (track.get ⟨i + 1, hi⟩).met →
      lookupTrack track t = entryValue (track.get ⟨i, by omega⟩) (track.get ⟨i + 1, hi⟩) t) := by
  cases track with
  | nil => exact absurd rfl hne
  | cons e rest =>
    refine ⟨?_, ?_, ?_⟩
    · intro ht
      exact gLookup_before_first e rest hs t ht
    · intro ht
      exact gLookup_after_last e rest hs t ht
    · intro i hi h1 h2
      exact gLookup_active e rest hs t i hi h1 h2

/-- Witness for C1 on the shipped Artemis I elevation table: a query inside a
delta-frame transition span, a query past the last entry, and a query before
the first entry. -/
theorem guidance_lookup_spec_witness :
    lookupTrack gElevTab 20 = (F_EFvel_Earth_ENU_delta, 0) ∧
    lookupTrack gElevTab 7000 = (F_none, 0) ∧
    lookupTrack gElevTab (-20) = (F_Launch_ENU_abs, 0) := by
  have hne : gElevTab ≠ [] := by simp [gElevTab]
  have hs : sortedTrack gElevTab := by
    simp only [sortedTrack, gElevTab, List.chain'_cons, List.chain'_singleton]
    norm_num
  refine ⟨?_, ?_, ?_⟩
  · exact ((guidance_lookup_spec gElevTab hne hs 20).2.2 3 (by norm_num [gElevTab])
      (by norm_num [gElevTab]) (by norm_num [gElevTab])).trans
      (by norm_num [gElevTab, entryValue, isTransitionFrame, F_EFvel_Earth_ENU_delta])
  · exact ((guidance_lookup_spec gElevTab hne hs 7000).2.1
      (by norm_num [gElevTab])).trans (by norm_num [gElevTab, F_none])
  · exact ((guidance_lookup_spec gElevTab hne hs (-20)).1
      (by norm_num [gElevTab])).trans (by norm_num [gElevTab, F_Launch_ENU_abs])

/-! ## Throttle/Staging Sequencer: data model and the shipped tables -/

/-- One row of a throttle table:
`{MET, throttleStart, throttleEnd, engineTypeIndex, activeEngineCount}`;
a `throttleEnd` of `-1` is the hold sentinel. -/
structure TEntry where
  met : ℚ
  throttleStart : ℚ
  throttleEnd : ℚ
  engineType : ℕ
  engineCount : ℕ
  deriving DecidableEq, Repr

/-- A throttle table is well-formed when its MET column is strictly
increasing. -/
def sortedThrottle (table : List TEntry) : Prop :=
  List.Chain' (fun a b => a.met < b.met) table

/-- `spacecraft.SRB.throttleInit`, embedded verbatim from the mission file. -/
def srbThrottleInit : List TEntry :=
  [ ⟨-10, 0.0, -1, 0, 1⟩,
    ⟨0, 0.0, -1, 0, 1⟩,
    ⟨0.3, 1.0, -1, 0, 1⟩,
    ⟨3.2, 0.985, -1, 0, 1⟩,
    ⟨6.3, 0.994, -1, 0, 1⟩,
    ⟨23.4, 0.998, -1, 0, 1⟩,
    ⟨26.4, 0.949, -1, 0, 1⟩,
    ⟨35, 0.859, -1, 0, 1⟩,
    ⟨43, 0.807, -1, 0, 1⟩,
    ⟨52.5, 0.790, -1, 0, 1⟩,
    ⟨70, 0.885, -1, 0, 1⟩,
    ⟨80, 0.923, -1, 0, 1⟩,
    ⟨88.5, 0.924, -1, 0, 1⟩,
    ⟨94.5, 0.894, -1, 0, 1⟩,
    ⟨98.7, 0.854, -1, 0, 1⟩,
    ⟨100.8, 0.817, -1, 0, 1⟩,
    ⟨106, 0.792, -1, 0, 1⟩,
    ⟨110, 0.756, -1, 0, 1⟩,
    ⟨113, 0.699, -1, 0, 1⟩,
    ⟨116, 0.499, -1, 0, 1⟩,
    ⟨119, 0.220, -1, 0, 1⟩,
    ⟨124, 0.040, -1, 0, 1⟩,
    ⟨126.2, 0.0, -1, 0, 0⟩ ]

/-- `spacecraft.Stages.throttleInit`, embedded verbatim from the mission
file (engine type 0 is the RS-25, type 1 the RL10B-2). -/
def stagesThrottleInit : List TEntry :=
  [ ⟨-10, 0, 0, 0, 4⟩,
    ⟨-6.6, 0, -1, 0, 4⟩,
    ⟨-2.35, 1, 1, 0, 4⟩,
    ⟨0, 1.09, 1.09, 0, 4⟩,
    ⟨55, 1.00, 1.00, 0, 4⟩,
    ⟨81, 1.09, 1.09, 0, 4⟩,
    ⟨123, 0.85, 0.85, 0, 4⟩,
    ⟨132, 1.09, 1.09, 0, 4⟩,
    ⟨421, 1.09, -1, 0, 4⟩,
    ⟨440, 0.949, -1, 0, 4⟩,
    ⟨460, 0.820, 0.729, 0, 4⟩,
    ⟨476, 0.67, 0.67, 0, 4⟩,
    ⟨482.8, 0, 0, 0, 4⟩,
    ⟨3200, 1, 1, 1, 1⟩,
    ⟨3221.28, 0, 0, 1, 1⟩,
    ⟨5220.5, 1, 1, 1, 1⟩,
    ⟨6293, 0, 0, 1, 1⟩ ]

/-- The value the throttle ramps towards over the span from entry `e` to the
next entry `next`: the next entry's Start when `e`'s End is the hold
sentinel `-1`, and `e`'s own End otherwise. -/
def rampTarget (e next : TEntry) : ℚ :=
  if e.throttleEnd = -1 then next.throttleStart else e.throttleEnd

/-- Modelled from the spec: the Throttle/Staging Sequencer's throttle
fraction (§4.4), absent from the sources.  Between entry `e` and the next
entry the throttle is linear from `e`'s Start at `e`'s MET to `rampTarget`
at the next entry's MET; before the first entry and after the last entry the
nearest boundary value holds (a lookup miss is never fatal). -/
def throttleFrom : TEntry → List TEntry → ℚ → ℚ
  | e, [], _ => e.throttleStart
  | e, e2 :: rest, t =>
    if t < e2.met then
      if e.met ≤ t then
        e.throttleStart + (rampTarget e e2 - e.throttleStart) * (t - e.met) / (e2.met - e.met)
      else e.throttleStart
    else throttleFrom e2 rest t

/-- Throttle fraction of a whole (nonempty) throttle table. -/
def throttleTable (table : List TEntry) (t : ℚ) : ℚ :=
  match table with
  | [] => 0
  | e :: rest => throttleFrom e rest t

/-- Modelled from the spec: the Sequencer's engine type and active-engine
count (§4.4), absent from the sources.  Both change instantaneously at each
entry's MET (step/hold), and the last entry's values hold afterwards. -/
def engineStateFrom : TEntry → List TEntry → ℚ → ℕ × ℕ
  | e, [], _ => (e.engineType, e.engineCount)
  | e, e2 :: rest, t =>
    if t < e2.met then (e.engineType, e.engineCount) else engineStateFrom e2 rest t

/-- Engine type and active-engine count of a whole (nonempty) table. -/
def engineStateTable (table : List TEntry) (t : ℚ) : ℕ × ℕ :=
  match table with
  | [] => (0, 0)
  | e :: rest => engineStateFrom e rest t

/-! ## C2: characterisation of the Throttle/Staging Sequencer -/

lemma throttleFrom_after_last (e : TEntry) (rest : List TEntry)
    (h : sortedThrottle (e :: rest)) (t : ℚ)
    (ht : ((e :: rest).getLast (List.cons_ne_nil e rest)).met ≤ t) :
    throttleFrom e rest t = ((e :: rest).getLast (List.cons_ne_nil e rest)).throttleStart := by
  induction rest generalizing e with
  | nil => rfl
  | cons e2 rest ih =>
    have h2 : sortedThrottle (e2 :: rest) := (List.chain'_cons.mp h).2
    have hle : e2.met ≤ t :=
      le_trans (head_le_getLast_of_chainLt TEntry.met e2 rest h2) ht
    show (if t < e2.met then _ else throttleFrom e2 rest t) = _
    rw [if_neg (not_lt.mpr hle)]
    exact ih e2 h2 ht

lemma engineStateFrom_after_last (e : TEntry) (rest : List TEntry)
    (h : sortedThrottle (e :: rest)) (t : ℚ)
    (ht : ((e :: rest).getLast (List.cons_ne_nil e rest)).met ≤ t) :
    engineStateFrom e rest t =
      (((e :: rest).getLast (List.cons_ne_nil e rest)).engineType,
       ((e :: rest).getLast (List.cons_ne_nil e rest)).engineCount) := by
  induction rest generalizing e with
  | nil => rfl
  | cons e2 rest ih =>
    have h2 : sortedThrottle (e2 :: rest) := (List.chain'_cons.mp h).2
    have hle : e2.met ≤ t :=
      le_trans (head_le_getLast_of_chainLt TEntry.met e2 rest h2) ht
    show (if t < e2.met then _ else engineStateFrom e2 rest t) = _
    rw [if_neg (not_lt.mpr hle)]
    exact ih e2 h2 ht

lemma throttleFrom_active (e : TEntry) (rest : List TEntry)
    (h : sortedThrottle (e :: rest)) (t : ℚ) :
    ∀ (i : ℕ) (hi : i + 1 < (e :: rest).length),
      ((e :: rest).get ⟨i, by omega⟩).met ≤ t → t < ((e :: rest).get ⟨i + 1, hi⟩).met →
      throttleFrom e rest t =
        ((e :: rest).get ⟨i, by omega⟩).throttleStart +
          (rampTarget ((e :: rest).get ⟨i, by omega⟩) ((e :: rest).get ⟨i + 1, hi⟩) -
            ((e :: rest).get ⟨i, by omega⟩).throttleStart) *
            (t - ((e :: rest).get ⟨i, by omega⟩).met) /
            (((e :: rest).get ⟨i + 1, hi⟩).met - ((e :: rest).get ⟨i, by omega⟩).met) := by
  induction rest generalizing e with
  | nil => intro i hi; simp at hi
  | cons e2 rest ih =>
    intro i hi h1 h2
    cases i with
    | zero =>
      have h1' : e.met ≤ t := h1
      have h2' : t < e2.met := h2
      show (if t < e2.met then if e.met ≤ t then _ else _ else _) = _
      rw [if_pos h2', if_pos h1']
      rfl
    | succ k =>
      have h' : sortedThrottle (e2 :: rest) := (List.chain'_cons.mp h).2
      have hi' : k + 1 < (e2 :: rest).length := by simpa using hi
      have hk0 : k < (e2 :: rest).length := by omega
      have hk : e2.met ≤ ((e2 :: rest).get ⟨k, hk0⟩).met :=
        head_le_get_of_chainLt TEntry.met e2 rest h' k hk0
      have h1' : ((e2 :: rest).get ⟨k, hk0⟩).met ≤ t := h1
      have h2' : t < ((e2 :: rest).get ⟨k + 1, hi'⟩).met := h2
      have hnlt : ¬ t < e2.met := not_lt.mpr (le_trans hk h1')
      show (if t < e2.met then _ else throttleFrom e2 rest t) = _
      rw [if_neg hnlt]
      exact ih e2 h' k hi' h1' h2'

lemma engineStateFrom_active (e : TEntry) (rest : List TEntry)
    (h : sortedThrottle (e :: rest)) (t : ℚ) :
    ∀ (i : ℕ) (hi : i + 1 < (e :: rest).length),
      ((e :: rest).get ⟨i, by omega⟩).met ≤ t → t < ((e :: rest).get ⟨i + 1, hi⟩).met →
      engineStateFrom e rest t =
        (((e :: rest).get ⟨i, by omega⟩).engineType,
         ((e :: rest).get ⟨i, by omega⟩).engineCount) := by
  induction rest generalizing e with
  | nil => intro i hi; simp at hi
  | cons e2 rest ih =>
    intro i hi h1 h2
    cases i with
    | zero =>
      have h2' : t < e2.met := h2
      show (if t < e2.met then _ else _) = _
      rw [if_pos h2']
      rfl
    | succ k =>
      have h' : sortedThrottle (e2 :: rest) := (List.chain'_cons.mp h).2
      have hi' : k + 1 < (e2 :: rest).length := by simpa using hi
      have hk0 : k < (e2 :: rest).length := by omega
      have hk : e2.met ≤ ((e2 :: rest).get ⟨k, hk0⟩).met :=
        head_le_get_of_chainLt TEntry.met e2 rest h' k hk0
      have h1' : ((e2 :: rest).get ⟨k, hk0⟩).met ≤ t := h1
      have h2' : t < ((e2 :: rest).get ⟨k + 1, hi'⟩).met := h2
      have hnlt : ¬ t < e2.met := not_lt.mpr (le_trans hk h1')
      show (if t < e2.met then _ else engineStateFrom e2 rest t) = _
      rw [if_neg hnlt]
      exact ih e2 h' k hi' h1' h2'

/-- C2: for every strictly-MET-sorted nonempty throttle table, between two
consecutive entries the throttle fraction is the linear interpolation over
that span from the current entry's Start towards the next entry's Start when
the current entry's End is the hold sentinel `-1`, and towards the current
entry's End otherwise (`rampTarget`); engine type and active-engine count
are those of the current entry, changing instantaneously at each entry's
MET; and at or past the last entry's MET the throttle and the engine state
hold the last entry's values. -/
theorem throttle_sequencer_spec (table : List TEntry) (hne : table ≠ [])
    (hs : sortedThrottle table) (t : ℚ) :
    (∀ (i : ℕ) (hi : i + 1 < table.length),
      (table.get ⟨i, by omega⟩).met ≤ t → t < (table.get ⟨i + 1, hi⟩).met →
      throttleTable table t =
        (table.get ⟨i, by omega⟩).throttleStart +
          (rampTarget (table.get ⟨i, by omega⟩) (table.get ⟨i + 1, hi⟩) -
            (table.get ⟨i, by omega⟩).throttleStart) *
            (t - (table.get ⟨i, by omega⟩).met) /
            ((table.get ⟨i + 1, hi⟩).met - (table.get ⟨i, by omega⟩).met) ∧
      engineStateTable table t =
        ((table.get ⟨i, by omega⟩).engineType, (table.get ⟨i, by omega⟩).engineCount)) ∧
    ((table.getLast hne).met ≤ t →
      throttleTable table t = (table.getLast hne).throttleStart ∧
      engineStateTable table t =
        ((table.getLast hne).engineType, (table.getLast hne).engineCount)) := by
  cases table with
  | nil => exact absurd rfl hne
  | cons e rest =>
    refine ⟨?_, ?_⟩
    · intro i hi h1 h2
      exact ⟨throttleFrom_active e rest hs t i hi h1 h2,
        engineStateFrom_active e rest hs t i hi h1 h2⟩
    · intro ht
      exact ⟨throttleFrom_after_last e rest hs t ht,
        engineStateFrom_after_last e rest hs t ht⟩

/-- Witness for C2 on the shipped SRB throttle table: during the ignition
ramp (MET 0.15, halfway between Start 0 at MET 0 and the next Start 1.0 at
MET 0.3) and past the last entry (engines off, zero active engines). -/
theorem throttle_sequencer_spec_witness :
    throttleTable srbThrottleInit 0.15 = 1/2 ∧
    engineStateTable srbThrottleInit 0.15 = (0, 1) ∧
    throttleTable srbThrottleInit 1000 = 0 ∧
    engineStateTable srbThrottleInit 1000 = (0, 0) := by
  have hne : srbThrottleInit ≠ [] := by simp [srbThrottleInit]
  have hs : sortedThrottle srbThrottleInit := by
    simp only [sortedThrottle, srbThrottleInit, List.chain'_cons, List.chain'_singleton]
    norm_num
  have hmid := (throttle_sequencer_spec srbThrottleInit hne hs 0.15).1 1
    (by norm_num [srbThrottleInit]) (by norm_num [srbThrottleInit])
    (by norm_num [srbThrottleInit])
  have hend := (throttle_sequencer_spec srbThrottleInit hne hs 1000).2
    (by norm_num [srbThrottleInit])
  refine ⟨?_, ?_, ?_, ?_⟩
  · exact hmid.1.trans (by norm_num [srbThrottleInit, rampTarget])
  · exact hmid.2.trans (by norm_num [srbThrottleInit])
  · exact hend.1.trans (by norm_num [srbThrottleInit])
  · exact hend.2.trans (by norm_num [srbThrottleInit])

/-! ## C3: the SRB ignition scenario -/

/-- The throttle table of the ignition scenario: the first three rows of
`spacecraft.SRB.throttleInit`. -/
def srbThrottle3 : List TEntry := srbThrottleInit.take 3

/-- C3 counterexample: at MET `0.15` — inside `[-10, 0.3)` — the Sequencer's
throttle fraction is `1/2`, not `0`: between the entries at MET `0` (Start
`0`, End `-1`) and MET `0.3` (Start `1.0`) the hold sentinel ramps the
throttle linearly from `0` towards `1.0`, so the value on `[0, 0.3)` is not
identically zero. -/
theorem throttle_scenario_cex :
    ((-10 : ℚ) ≤ 0.15 ∧ (0.15 : ℚ) < 0.3) ∧
    throttleTable srbThrottle3 0.15 = 1/2 ∧
    throttleTable srbThrottle3 0.15 ≠ 0 := by
  norm_num [srbThrottle3, srbThrottleInit, throttleTable, throttleFrom, rampTarget]

/-- C3 as amended: the scenario table yields throttle exactly `0` for MET in
`[-10, 0]`, the linear ignition ramp `t·10/3` for MET in `[0, 0.3)`, and
exactly `1.0` for MET ≥ `0.3`; at every MET the throttle lies within
`[0, 1]` (never negative, never above the table's maximum). -/
theorem throttle_scenario_amended (t : ℚ) :
    (t ≤ 0 → throttleTable srbThrottle3 t = 0) ∧
    (0 ≤ t → t < 0.3 → throttleTable srbThrottle3 t = t * 10 / 3) ∧
    (0.3 ≤ t → throttleTable srbThrottle3 t = 1) ∧
    (0 ≤ throttleTable srbThrottle3 t ∧ throttleTable srbThrottle3 t ≤ 1) := by
  have hval : throttleTable srbThrottle3 t =
      if t < 0 then 0 else if t < 0.3 then t * 10 / 3 else 1 := by
    simp only [srbThrottle3, srbThrottleInit, List.take, throttleTable, throttleFrom, rampTarget]
    norm_num
    split_ifs with h1 h2 h3 <;> linarith
  rw [hval]
  refine ⟨?_, ?_, ?_, ?_⟩
  · intro ht
    split_ifs with h1 h2 <;> first | rfl | linarith
  · intro ht1 ht2
    split_ifs with h1 h2 <;> first | rfl | linarith
  · intro ht
    split_ifs with h1 h2 <;> first | rfl | linarith
  · split_ifs with h1 h2 <;> constructor <;> linarith

/-- Witness for the amended C3 at MET `0.15`: the ramp value is `1/2`, and
the bounds hold there. -/
theorem throttle_scenario_amended_witness :
    throttleTable srbThrottle3 0.15 = (0.15 : ℚ) * 10 / 3 ∧
    0 ≤ throttleTable srbThrottle3 0.15 ∧ throttleTable srbThrottle3 0.15 ≤ 1 := by
  refine ⟨?_, ?_⟩
  · exact (throttle_scenario_amended 0.15).2.1 (by norm_num) (by norm_num)
  · exact (throttle_scenario_amended 0.15).2.2.2

/-! ## C4: Frame Resolver pairing rules

The pairing rules are transcribed from the `guidanceData` docstring of the
mission file (which frame each track may be combined with); the check
itself is modelled from the spec, since the Frame Resolver is not among the
sources. -/

/-- Frames the `guidanceData` docstring lets both tracks mix freely with
each other: `F_Earth_ENU_abs`, `F_EFvel_Earth_ENU_delta`,
`F_SFvel_Earth_ENU_delta`. -/
def freelyMixable (f : ℕ) : Bool :=
  f == F_Earth_ENU_abs || f == F_EFvel_Earth_ENU_delta || f == F_SFvel_Earth_ENU_delta

/-- The docstring's manually set-up static user frames
`F_SM0_abs`–`F_SM9_abs` (as modelled, the ID range `20`–`29`). -/
def staticFrame (f : ℕ) : Bool :=
  decide (F_SM0_abs ≤ f) && decide (f ≤ F_SM9_abs)

/-- Frames whose docstring says "Cannot be combined with other frames":
`F_GCRF_abs`, `F_VUW_abs`, `F_VNB_abs`, `F_none`, and the static user
frames `F_SM0_abs`–`F_SM9_abs`. -/
def exclusiveFrame (f : ℕ) : Bool :=
  f == F_GCRF_abs || f == F_VUW_abs || f == F_VNB_abs || f == F_none || staticFrame f

/-- The claim's "delta frame or absolute-ENU frame" class. -/
def deltaOrAbsENU (f : ℕ) : Bool :=
  freelyMixable f || f == F_Launch_ENU_abs

/-- Pairing table of the `guidanceData` docstring: the three freely-mixable
frames pair with each other; elevation `F_Launch_ENU_abs` pairs with those
three or with heading `F_Launch_ENU_abs`, while heading `F_Launch_ENU_abs`
pairs only with elevation `F_Launch_ENU_abs`; an exclusive frame pairs only
with itself. -/
def compatibleFrames (elevF headF : ℕ) : Bool :=
  (freelyMixable elevF && freelyMixable headF)
  || (elevF == F_Launch_ENU_abs && (freelyMixable headF || headF == F_Launch_ENU_abs))
  || (exclusiveFrame elevF && headF == elevF)

/-- Outcome of the Frame Resolver's configuration validation. -/
inductive ResolveOutcome where
  | ok
  | configurationError
  deriving DecidableEq, Repr

/-- Modelled from the spec: the Frame Resolver's pairing validation (§4.1,
§7), absent from the sources — resolving succeeds on a compatible
elevation/heading frame pairing and fails with a `ConfigurationError`
otherwise. -/
def resolveCheck (elevF headF : ℕ) : ResolveOutcome :=
  if compatibleFrames elevF headF then .ok else .configurationError

/-- C4 counterexample: `F_Earth_ENU_abs` (elevation) and `F_Launch_ENU_abs`
(heading) are both in the claim's "delta or absolute-ENU" class, yet the
docstring's pairing table rejects the pairing — heading `F_Launch_ENU_abs`
may only be combined with elevation `F_Launch_ENU_abs` — so the two
absolute-ENU frames may not be paired freely. -/
theorem frame_pairing_cex :
    deltaOrAbsENU F_Earth_ENU_abs = true ∧
    deltaOrAbsENU F_Launch_ENU_abs = true ∧
    resolveCheck F_Earth_ENU_abs F_Launch_ENU_abs = .configurationError := by
  decide

lemma exclusive_not_mixable (f : ℕ) (hf : exclusiveFrame f = true) :
    freelyMixable f = false ∧ (f == F_Launch_ENU_abs) = false := by
  simp only [exclusiveFrame, staticFrame, Bool.or_eq_true, Bool.and_eq_true, beq_iff_eq,
    decide_eq_true_eq, F_GCRF_abs, F_VUW_abs, F_VNB_abs, F_none, F_SM0_abs, F_SM9_abs] at hf
  simp only [freelyMixable, Bool.or_eq_false_iff, beq_eq_false_iff_ne, ne_eq,
    F_Earth_ENU_abs, F_EFvel_Earth_ENU_delta, F_SFvel_Earth_ENU_delta, F_Launch_ENU_abs]
  omega

/-- C4 as amended: the delta frames and `F_Earth_ENU_abs` may be paired
freely with each other across the two tracks; elevation `F_Launch_ENU_abs`
may be paired with any of those or with heading `F_Launch_ENU_abs`, but
heading `F_Launch_ENU_abs` resolves only when the elevation track is also
`F_Launch_ENU_abs`; inertial-absolute, VUW, VNB, the static user frames
and no-frame are each exclusive — whenever either track uses one of them,
resolve succeeds iff both tracks use the same frame, and fails with a
`ConfigurationError` otherwise. -/
theorem frame_pairing_amended :
    (∀ e h : ℕ, freelyMixable e = true → freelyMixable h = true →
      resolveCheck e h = .ok) ∧
    (∀ h : ℕ, freelyMixable h = true ∨ h = F_Launch_ENU_abs →
      resolveCheck F_Launch_ENU_abs h = .ok) ∧
    (∀ e : ℕ, resolveCheck e F_Launch_ENU_abs = .ok ↔ e = F_Launch_ENU_abs) ∧
    (∀ e h : ℕ, exclusiveFrame e = true ∨ exclusiveFrame h = true →
      (resolveCheck e h = .ok ↔ e = h)) := by
  refine ⟨?_, ?_, ?_, ?_⟩
  · intro e h he hh
    simp [resolveCheck, compatibleFrames, he, hh]
  · intro h hh
    rcases hh with hh | hh <;> simp [resolveCheck, compatibleFrames, hh]
  · intro e
    by_cases he : e = F_Launch_ENU_abs
    · subst he; simp [resolveCheck, compatibleFrames]
    · simp [resolveCheck, compatibleFrames, freelyMixable, exclusiveFrame, staticFrame, he,
        F_Launch_ENU_abs, F_Earth_ENU_abs, F_EFvel_Earth_ENU_delta, F_SFvel_Earth_ENU_delta,
        F_GCRF_abs, F_VUW_abs, F_VNB_abs, F_none, F_SM0_abs, F_SM9_abs]
      omega
  · intro e h hor
    have hcomp : compatibleFrames e h = true ↔ e = h := by
      rcases hor with hex | hex
      · have hnm := exclusive_not_mixable e hex
        constructor
        · intro hc
          simp only [compatibleFrames, hnm.1, hnm.2, Bool.false_and, Bool.false_or,
            Bool.or_eq_true, Bool.and_eq_true, beq_iff_eq] at hc
          exact hc.2.symm
        · intro he
          subst he
          simp [compatibleFrames, hex]
      · have hnm := exclusive_not_mixable h hex
        constructor
        · intro hc
          simp only [compatibleFrames, hnm.1, hnm.2, Bool.and_false, Bool.false_or,
            Bool.or_eq_false_iff, Bool.or_eq_true, Bool.and_eq_true, beq_iff_eq] at hc
          exact hc.2.symm
        · intro he
          subst he
          simp [compatibleFrames, hex]
    constructor
    · intro hok
      by_cases hc : compatibleFrames e h = true
      · exact hcomp.mp hc
      · exfalso
        unfold resolveCheck at hok
        rw [if_neg hc] at hok
        exact ResolveOutcome.noConfusion hok
    · intro he
      unfold resolveCheck
      rw [if_pos (hcomp.mpr he)]

/-- Witness for the amended C4 at concrete frame pairings, the static
frames included: a static frame pairs with itself and with nothing else. -/
theorem frame_pairing_amended_witness :
    resolveCheck F_Earth_ENU_abs F_SFvel_Earth_ENU_delta = .ok ∧
    resolveCheck F_Launch_ENU_abs F_Earth_ENU_abs = .ok ∧
    ¬ resolveCheck F_VNB_abs F_none = .ok ∧
    resolveCheck (F_SM0_abs + 3) (F_SM0_abs + 3) = .ok ∧
    ¬ resolveCheck F_SM0_abs F_SM9_abs = .ok := by
  refine ⟨?_, ?_, ?_, ?_, ?_⟩
  · exact frame_pairing_amended.1 F_Earth_ENU_abs F_SFvel_Earth_ENU_delta
      (by decide) (by decide)
  · exact frame_pairing_amended.2.1 F_Earth_ENU_abs (Or.inl (by decide))
  · intro hok
    have := (frame_pairing_amended.2.2.2 F_VNB_abs F_none (Or.inl (by decide))).mp hok
    exact absurd this (by decide)
  · exact (frame_pairing_amended.2.2.2 (F_SM0_abs + 3) (F_SM0_abs + 3)
      (Or.inl (by decide))).mpr rfl
  · intro hok
    have := (frame_pairing_amended.2.2.2 F_SM0_abs F_SM9_abs (Or.inl (by decide))).mp hok
    exact absurd this (by decide)

/-! ## C5: Vehicle Stage Model -/

/-- One row of a parts table:
`{name, stagingTime, dryMass, fuelMass, dragArea}`. -/
structure VehiclePart where
  name : String
  stagingTime : ℚ
  dryMass : ℚ
  fuelMass : ℚ
  dragArea : ℚ
  deriving DecidableEq, Repr

/-- `spacecraft.SRB.partsInit`, embedded verbatim from the mission file. -/
def srbPartsInit : List VehiclePart :=
  [ ⟨"SRB", 132, 99337, 626411, 10.81⟩ ]

/-- `spacecraft.Stages.partsInit`, embedded verbatim from the mission file. -/
def stagesPartsInit : List VehiclePart :=
  [ ⟨"Core Stage", 500, 103871, 987471, 55.42⟩,
    ⟨"ICPS", 7500, 5171, 28987, 20.43⟩,
    ⟨"ESM", 999999, 4400, 8600, 0⟩ ]

/-- `spacecraft.Payload.partsInit`, embedded verbatim from the mission file. -/
def payloadPartsInit : List VehiclePart :=
  [ ⟨"Fairing panels", 200, 1270, 0, 0⟩,
    ⟨"Launch Abort System", 225, 7575, 0, 0⟩,
    ⟨"Crew Module", 999999, 9344, 0, 0⟩ ]

/-- Modelled from the spec: the Vehicle Stage Model's total mass (§4.3),
absent from the sources.  A part contributes its dry mass plus its current
fuel mass until its `stagingTime` is reached, after which it is excluded;
the remaining fuel is engine state integrated by the engine, supplied here
as a per-part function of MET. -/
def totalMass (parts : List VehiclePart) (fuel : VehiclePart → ℚ → ℚ) (t : ℚ) : ℚ :=
  (parts.map (fun p => if t < p.stagingTime then p.dryMass + fuel p t else 0)).sum

/-- Modelled from the spec: the Vehicle Stage Model's total drag area
(§4.3) — the sum of the drag areas of the parts not yet staged. -/
def totalDragArea (parts : List VehiclePart) (t : ℚ) : ℚ :=
  (parts.map (fun p => if t < p.stagingTime then p.dragArea else 0)).sum

lemma totalMass_antitone (parts : List VehiclePart) (fuel : VehiclePart → ℚ → ℚ)
    (hdry : ∀ p ∈ parts, 0 ≤ p.dryMass)
    (hfuelpos : ∀ p ∈ parts, ∀ u : ℚ, 0 ≤ fuel p u)
    (hfuelmono : ∀ p ∈ parts, ∀ s t : ℚ, s ≤ t → fuel p t ≤ fuel p s)
    (s t : ℚ) (hst : s ≤ t) :
    totalMass parts fuel t ≤ totalMass parts fuel s := by
  induction parts with
  | nil => simp [totalMass]
  | cons p rest ih =>
    have hd : 0 ≤ p.dryMass := hdry p (List.mem_cons_self p rest)
    have hhead : (if t < p.stagingTime then p.dryMass + fuel p t else 0) ≤
        (if s < p.stagingTime then p.dryMass + fuel p s else 0) := by
      split_ifs with h1 h2 h2
      · exact add_le_add le_rfl (hfuelmono p (List.mem_cons_self p rest) s t hst)
      · exact absurd (lt_of_le_of_lt hst h1) h2
      · exact add_nonneg hd (hfuelpos p (List.mem_cons_self p rest) s)
      · exact le_refl 0
    have hrest := ih (fun q hq => hdry q (List.mem_cons_of_mem p hq))
      (fun q hq => hfuelpos q (List.mem_cons_of_mem p hq))
      (fun q hq => hfuelmono q (List.mem_cons_of_mem p hq))
    simp only [totalMass, List.map_cons, List.sum_cons]
    exact add_le_add hhead hrest

lemma totalMass_staging_drop (parts : List VehiclePart) (fuel : VehiclePart → ℚ → ℚ)
    (s t : ℚ) (hst : s < t)
    (hstag : ∀ p ∈ parts, p.stagingTime ≤ s ∨ t ≤ p.stagingTime)
    (hfreeze : ∀ p ∈ parts, fuel p s = fuel p t) :
    totalMass parts fuel s - totalMass parts fuel t =
      (parts.map (fun p => if p.stagingTime = t then p.dryMass + fuel p t else 0)).sum ∧
    totalDragArea parts s - totalDragArea parts t =
      (parts.map (fun p => if p.stagingTime = t then p.dragArea else 0)).sum := by
  induction parts with
  | nil => simp [totalMass, totalDragArea]
  | cons p rest ih =>
    have hrest := ih (fun q hq => hstag q (List.mem_cons_of_mem p hq))
      (fun q hq => hfreeze q (List.mem_cons_of_mem p hq))
    have hfp : fuel p s = fuel p t := hfreeze p (List.mem_cons_self p rest)
    simp only [totalMass, totalDragArea, List.map_cons, List.sum_cons] at hrest ⊢
    rcases hstag p (List.mem_cons_self p rest) with h | h
    · have hs : ¬ s < p.stagingTime := not_lt.mpr h
      have ht : ¬ t < p.stagingTime := not_lt.mpr (le_trans h (le_of_lt hst))
      have hne : ¬ p.stagingTime = t := fun he => absurd (he ▸ h) (not_le.mpr hst)
      rw [if_neg hs, if_neg ht, if_neg hne, if_neg hs, if_neg ht, if_neg hne]
      constructor <;> linarith [hrest.1, hrest.2]
    · rcases eq_or_lt_of_le h with he | hlt
      · have hs : s < p.stagingTime := he ▸ hst
        have ht : ¬ t < p.stagingTime := by rw [← he]; exact lt_irrefl t
        have heq : p.stagingTime = t := he.symm
        rw [if_pos hs, if_neg ht, if_pos heq, if_pos hs, if_neg ht, if_pos heq]
        constructor <;> linarith [hrest.1, hrest.2]
      · have hs : s < p.stagingTime := lt_trans hst hlt
        have ht : t < p.stagingTime := hlt
        have hne : ¬ p.stagingTime = t := fun he => absurd (he ▸ hlt) (lt_irrefl t)
        rw [if_pos hs, if_pos ht, if_neg hne, if_pos hs, if_pos ht, if_neg hne]
        constructor <;> linarith [hrest.1, hrest.2]

lemma totalMass_filter_staged (parts : List VehiclePart) (fuel : VehiclePart → ℚ → ℚ)
    (u : ℚ) :
    totalMass parts fuel u = totalMass (parts.filter (fun p => u < p.stagingTime)) fuel u ∧
    totalDragArea parts u = totalDragArea (parts.filter (fun p => u < p.stagingTime)) u := by
  induction parts with
  | nil => simp [totalMass, totalDragArea]
  | cons p rest ih =>
    have ih1 := ih.1
    have ih2 := ih.2
    simp only [totalMass, totalDragArea] at ih1 ih2
    by_cases h : u < p.stagingTime <;>
      simp [totalMass, totalDragArea, List.filter_cons, h, ih1, ih2]

/-- C5: for a vehicle whose parts have non-negative dry masses and whose
per-part fuel state is non-negative and non-increasing in MET, the Stage
Model's `totalMass` is non-increasing; across an interval `(s, t]` in whose
interior no part stages and over which the fuel state is unchanged, the
mass drops at `t` by exactly the dry mass plus remaining fuel mass of the
parts staging at `t`, and the drag area drops by exactly their drag area;
and at every MET a staged part is excluded entirely — the totals equal the
totals over only the not-yet-staged parts. -/
theorem stage_mass_spec (parts : List VehiclePart) (fuel : VehiclePart → ℚ → ℚ)
    (hdry : ∀ p ∈ parts, 0 ≤ p.dryMass)
    (hfuelpos : ∀ p ∈ parts, ∀ u : ℚ, 0 ≤ fuel p u)
    (hfuelmono : ∀ p ∈ parts, ∀ s t : ℚ, s ≤ t → fuel p t ≤ fuel p s) :
    (∀ s t : ℚ, s ≤ t → totalMass parts fuel t ≤ totalMass parts fuel s) ∧
    (∀ s t : ℚ, s < t →
      (∀ p ∈ parts, p.stagingTime ≤ s ∨ t ≤ p.stagingTime) →
      (∀ p ∈ parts, fuel p s = fuel p t) →
      totalMass parts fuel s - totalMass parts fuel t =
        (parts.map (fun p => if p.stagingTime = t then p.dryMass + fuel p t else 0)).sum ∧
      totalDragArea parts s - totalDragArea parts t =
        (parts.map (fun p => if p.stagingTime = t then p.dragArea else 0)).sum) ∧
    (∀ u : ℚ,
      totalMass parts fuel u = totalMass (parts.filter (fun p => u < p.stagingTime)) fuel u ∧
      totalDragArea parts u = totalDragArea (parts.filter (fun p => u < p.stagingTime)) u) :=
  ⟨fun s t hst => totalMass_antitone parts fuel hdry hfuelpos hfuelmono s t hst,
   fun s t hst hstag hfreeze => totalMass_staging_drop parts fuel s t hst hstag hfreeze,
   fun u => totalMass_filter_staged parts fuel u⟩

/-- Witness for C5 on the shipped `Stages` parts (fuel frozen at the
configured initial load): across Core Stage staging at MET `500`, the total
mass drops by exactly `103871 + 987471` and the drag area by `55.42`. -/
theorem stage_mass_spec_witness :
    totalMass stagesPartsInit (fun p _ => p.fuelMass) 500 ≤
      totalMass stagesPartsInit (fun p _ => p.fuelMass) 499 ∧
    totalMass stagesPartsInit (fun p _ => p.fuelMass) 499 -
      totalMass stagesPartsInit (fun p _ => p.fuelMass) 500 = 103871 + 987471 ∧
    totalDragArea stagesPartsInit 499 - totalDragArea stagesPartsInit 500 = 55.42 := by
  have hdry : ∀ p ∈ stagesPartsInit, 0 ≤ p.dryMass := by
    intro p hp
    simp only [stagesPartsInit, List.mem_cons, List.not_mem_nil, or_false] at hp
    rcases hp with rfl | rfl | rfl <;> norm_num
  have hfuelpos : ∀ p ∈ stagesPartsInit, ∀ u : ℚ, 0 ≤ (fun p _ => p.fuelMass) p u := by
    intro p hp u
    simp only [stagesPartsInit, List.mem_cons, List.not_mem_nil, or_false] at hp
    rcases hp with rfl | rfl | rfl <;> norm_num
  have hfuelmono : ∀ p ∈ stagesPartsInit, ∀ s t : ℚ, s ≤ t →
      (fun p _ => p.fuelMass) p t ≤ (fun p _ => p.fuelMass) p s :=
    fun p _ s t _ => le_refl p.fuelMass
  have hmain := stage_mass_spec stagesPartsInit (fun p _ => p.fuelMass) hdry hfuelpos hfuelmono
  have hdrop := hmain.2.1 499 500 (by norm_num)
    (by
      intro p hp
      simp only [stagesPartsInit, List.mem_cons, List.not_mem_nil, or_false] at hp
      rcases hp with rfl | rfl | rfl <;> norm_num)
    (fun p _ => rfl)
  refine ⟨hmain.1 499 500 (by norm_num), ?_, ?_⟩
  · exact hdrop.1.trans (by norm_num [stagesPartsInit])
  · exact hdrop.2.trans (by norm_num [stagesPartsInit])

/-! ## C6: Force Model Evaluator -/

/-- A 3-vector over `ℚ` (inertial-frame components). -/
structure Vec3 where
  x : ℚ
  y : ℚ
  z : ℚ
  deriving DecidableEq, Repr

instance : Add Vec3 := ⟨fun a b => ⟨a.x + b.x, a.y + b.y, a.z + b.z⟩⟩

instance : Zero Vec3 := ⟨⟨0, 0, 0⟩⟩

instance : SMul ℚ Vec3 := ⟨fun c v => ⟨c * v.x, c * v.y, c * v.z⟩⟩

/-- Euclidean inner product of two 3-vectors. -/
def dot (a b : Vec3) : ℚ := a.x * b.x + a.y * b.y + a.z * b.z

lemma vec3_zero_smul (v : Vec3) : (0 : ℚ) • v = 0 := by
  show Vec3.mk (0 * v.x) (0 * v.y) (0 * v.z) = Vec3.mk 0 0 0
  norm_num

@[simp] lemma vec3_add_zero (v : Vec3) : v + 0 = v := by
  cases v with
  | mk a b c =>
    show Vec3.mk (a + 0) (b + 0) (c + 0) = Vec3.mk a b c
    norm_num

@[simp] lemma vec3_zero_add (v : Vec3) : 0 + v = v := by
  cases v with
  | mk a b c =>
    show Vec3.mk (0 + a) (0 + b) (0 + c) = Vec3.mk a b c
    norm_num

/-- One row of `MRSmissionData.forcesSettings`:
`{EarthSHn, MoonSHn, planets, atmosModel, drag, SRP, EarthTides, MoonTides,
activeSC}`. -/
structure ForceSetting where
  earthSHn : ℕ
  moonSHn : ℕ
  planets : List String
  atmosModel : String
  drag : Bool
  srp : Bool
  earthTides : Bool
  moonTides : Bool
  activeSC : Bool
  deriving DecidableEq, Repr

/-- `MRSmissionData.forcesSettings`, embedded verbatim from the mission
file (row 0 "SH35, Earth Atmos, active SC"; row 1 "SH35, no atmos, static
SC"). -/
def forcesSettings : List ForceSetting :=
  [ ⟨35, 0, ["Earth"], "nrlmsise00", true, false, false, false, true⟩,
    ⟨35, 0, ["Earth"], "", false, false, false, false, false⟩ ]

/-- The state-, MET- and service-dependent inputs of one force evaluation:
gravity, atmosphere (density, relative velocity and its norm, drag
coefficient), spacecraft (drag area, mass), the solar-radiation-pressure
and tidal accelerations at the configured areas, and the thrust direction,
magnitude and throttle. -/
structure ForceEnv where
  gravity : Vec3
  rho : ℚ
  vrel : Vec3
  vrelNorm : ℚ
  cd : ℚ
  dragArea : ℚ
  mass : ℚ
  srpAccel : Vec3
  earthTidesAccel : Vec3
  moonTidesAccel : Vec3
  thrustDir : Vec3
  thrustMag : ℚ
  throttle : ℚ

/-- Modelled from the spec: the drag term of the Force Model Evaluator
(§4.5), `−½·ρ·|v_rel|·Cd·A/m · v_rel`. -/
def dragAccel (env : ForceEnv) : Vec3 :=
  (-(1/2) * env.rho * env.vrelNorm * env.cd * env.dragArea / env.mass) • env.vrel

/-- Modelled from the spec: the thrust term of the Force Model Evaluator
(§4.5), thrust direction × magnitude × throttle / mass. -/
def thrustAccel (env : ForceEnv) : Vec3 :=
  (env.thrustMag * env.throttle / env.mass) • env.thrustDir

/-- Modelled from the spec: the Force Model Evaluator (§4.5), absent from
the sources — sums gravity and the force terms gated by the
`ForceSetting` flags; the thrust term requires the active-spacecraft flag
and a positive throttle. -/
def acceleration (fs : ForceSetting) (env : ForceEnv) : Vec3 :=
  env.gravity
  + (if fs.drag then dragAccel env else 0)
  + (if fs.srp then env.srpAccel else 0)
  + (if fs.earthTides then env.earthTidesAccel else 0)
  + (if fs.moonTides then env.moonTidesAccel else 0)
  + (if fs.activeSC && decide (0 < env.throttle) then thrustAccel env else 0)

lemma dragAccel_area_zero (env : ForceEnv) : dragAccel { env with dragArea := 0 } = 0 := by
  have h : -(1/2 : ℚ) * env.rho * env.vrelNorm * env.cd * 0 / env.mass = 0 := by ring
  show (-(1/2 : ℚ) * env.rho * env.vrelNorm * env.cd * 0 / env.mass) • env.vrel = 0
  rw [h]
  exact vec3_zero_smul env.vrel

/-- C6: a force term whose `ForceSetting` flag is disabled contributes the
exact zero vector to the Evaluator's summed acceleration — bit-identical
to omitting the term.  In particular a run with drag disabled equals a run
with drag area `0`, a disabled SRP/tide flag equals a zero SRP/tide
acceleration, an inactive spacecraft equals zero throttle, and with drag
disabled the sum literally loses the drag summand. -/
theorem force_disabled_exact_zero (fs : ForceSetting) (env : ForceEnv) :
    acceleration { fs with drag := false } env =
      acceleration { fs with drag := true } { env with dragArea := 0 } ∧
    acceleration { fs with srp := false } env =
      acceleration { fs with srp := true } { env with srpAccel := 0 } ∧
    acceleration { fs with earthTides := false } env =
      acceleration { fs with earthTides := true } { env with earthTidesAccel := 0 } ∧
    acceleration { fs with moonTides := false } env =
      acceleration { fs with moonTides := true } { env with moonTidesAccel := 0 } ∧
    acceleration { fs with activeSC := false } env =
      acceleration { fs with activeSC := true } { env with throttle := 0 } ∧
    (fs.drag = false →
      acceleration fs env =
        env.gravity
        + (if fs.srp then env.srpAccel else 0)
        + (if fs.earthTides then env.earthTidesAccel else 0)
        + (if fs.moonTides then env.moonTidesAccel else 0)
        + (if fs.activeSC && decide (0 < env.throttle) then thrustAccel env else 0)) := by
  refine ⟨?_, ?_, ?_, ?_, ?_, ?_⟩
  · simp [acceleration, dragAccel_area_zero, thrustAccel]
  · simp [acceleration, dragAccel, thrustAccel]
  · simp [acceleration, dragAccel, thrustAccel]
  · simp [acceleration, dragAccel, thrustAccel]
  · simp [acceleration, dragAccel, thrustAccel]
  · intro hd
    simp [acceleration, hd]

/-- Witness for C6 at the shipped "static SC" force settings (row 1 of
`forcesSettings`, drag disabled) and a concrete evaluation environment. -/
theorem force_disabled_exact_zero_witness :
    acceleration ⟨35, 0, ["Earth"], "", false, false, false, false, false⟩
        ⟨⟨1, 2, 3⟩, 5, ⟨7, 0, 0⟩, 7, 2, 10, 1000, ⟨1, 0, 0⟩, ⟨0, 1, 0⟩, ⟨0, 0, 1⟩,
          ⟨1, 0, 0⟩, 4, 1⟩ = ⟨1, 2, 3⟩ := by
  have h := (force_disabled_exact_zero
      ⟨35, 0, ["Earth"], "", false, false, false, false, false⟩
      ⟨⟨1, 2, 3⟩, 5, ⟨7, 0, 0⟩, 7, 2, 10, 1000, ⟨1, 0, 0⟩, ⟨0, 1, 0⟩, ⟨0, 0, 1⟩,
        ⟨1, 0, 0⟩, 4, 1⟩).2.2.2.2.2 rfl
  refine h.trans ?_
  simp

/-! ## C7: Segment/Maneuver Scheduler -/

/-- One row of `MRSmissionData.missionSegments`:
`{MET, type (0 = propagate, 1 = impulsive maneuver), configID}`. -/
structure MissionSegment where
  met : ℚ
  segType : ℕ
  configID : ℕ
  deriving DecidableEq, Repr

/-- One row of `MRSmissionData.propaSettings`:
`{mode, method, stepsizePropa, forcesID, downsampleLog}`. -/
structure PropaSetting where
  mode : ℕ
  method : String
  stepsizePropa : ℚ
  forcesID : ℕ
  downsampleLog : ℕ
  deriving DecidableEq, Repr

/-- `MRSmissionData.missionSegments`, embedded verbatim from the mission
file. -/
def missionSegments : List MissionSegment :=
  [ ⟨-10, 0, 0⟩,
    ⟨0.2, 0, 1⟩,
    ⟨6300, 0, 2⟩,
    ⟨7500, 1, 0⟩,
    ⟨7581, 1, 1⟩,
    ⟨445000, 0, 1⟩ ]

/-- `MRSmissionData.propaSettings`, embedded verbatim from the mission
file. -/
def propaSettings : List PropaSetting :=
  [ ⟨0, "-", 1, 0, 10⟩,
    ⟨1, "DOP853", 1, 0, 10⟩,
    ⟨1, "DOP853", 1, 1, 10⟩ ]

/-- A segment table is well-formed when its MET column is strictly
increasing. -/
def sortedSegments (segs : List MissionSegment) : Prop :=
  List.Chain' (fun a b => a.met < b.met) segs

/-- Helper of `activeSegIdx`: `i` is the index of the segment whose tail
is being scanned. -/
def activeSegIdxAux : ℕ → List MissionSegment → ℚ → ℕ
  | i, [], _ => i
  | i, s2 :: rest, t => if t < s2.met then i else activeSegIdxAux (i + 1) rest t

/-- Modelled from the spec: the Scheduler's active segment (§4.6), absent
from the sources — the index of the last segment whose `MET_start` ≤ the
integrated MET; the force settings used by an evaluation at MET `t` are
those selected by this segment's `configID`. -/
def activeSegIdx (segs : List MissionSegment) (t : ℚ) : ℕ :=
  match segs with
  | [] => 0
  | _ :: rest => activeSegIdxAux 0 rest t

lemma activeSegIdxAux_ge (rest : List MissionSegment) :
    ∀ (i : ℕ) (t : ℚ), i ≤ activeSegIdxAux i rest t := by
  induction rest with
  | nil => intro i t; exact le_refl i
  | cons s2 rest ih =>
    intro i t
    show i ≤ if t < s2.met then i else activeSegIdxAux (i + 1) rest t
    split_ifs with h
    · exact le_refl i
    · exact le_trans (Nat.le_succ i) (ih (i + 1) t)

lemma activeSegIdxAux_ge_of_met_le (rest : List MissionSegment)
    (hs : List.Chain' (fun a b => a.met < b.met) rest) (t : ℚ) :
    ∀ (i j : ℕ) (hj : j < rest.length), (rest.get ⟨j, hj⟩).met ≤ t →
      i + j + 1 ≤ activeSegIdxAux i rest t := by
  induction rest with
  | nil => intro i j hj; simp at hj
  | cons s2 rest ih =>
    intro i j hj hmet
    cases j with
    | zero =>
      have h2 : s2.met ≤ t := hmet
      show i + 0 + 1 ≤ if t < s2.met then i else activeSegIdxAux (i + 1) rest t
      rw [if_neg (not_lt.mpr h2)]
      simpa using activeSegIdxAux_ge rest (i + 1) t
    | succ k =>
      have hk : k < rest.length := by simpa using hj
      have hs2 : s2.met ≤ ((s2 :: rest).get ⟨k + 1, hj⟩).met :=
        head_le_get_of_chainLt MissionSegment.met s2 rest hs (k + 1) hj
      have h2 : s2.met ≤ t := le_trans hs2 hmet
      have hmet' : (rest.get ⟨k, hk⟩).met ≤ t := hmet
      have hrest : List.Chain' (fun a b => a.met < b.met) rest :=
        (List.chain'_cons'.mp hs).2
      show i + (k + 1) + 1 ≤ if t < s2.met then i else activeSegIdxAux (i + 1) rest t
      rw [if_neg (not_lt.mpr h2)]
      have := ih hrest (i + 1) k hk hmet'
      omega

/-- C7: for a strictly-MET-sorted segment table, once the integrated MET
reaches segment `S_(i+1)`'s start, the Scheduler's active segment index is
at least `i + 1` — so no force evaluation at MET ≥ `S_(i+1).MET_start`
uses `S_i`'s settings. -/
theorem scheduler_segment_switch (segs : List MissionSegment)
    (hs : sortedSegments segs) (i : ℕ) (hi : i + 1 < segs.length) (t : ℚ)
    (ht : (segs.get ⟨i + 1, hi⟩).met ≤ t) :
    i + 1 ≤ activeSegIdx segs t ∧ activeSegIdx segs t ≠ i := by
  cases segs with
  | nil => simp at hi
  | cons s rest =>
    have hrest : List.Chain' (fun a b => a.met < b.met) rest :=
      (List.chain'_cons'.mp hs).2
    have hi' : i < rest.length := by simpa using hi
    have ht' : (rest.get ⟨i, hi'⟩).met ≤ t := ht
    have h := activeSegIdxAux_ge_of_met_le rest hrest t 0 i hi' ht'
    have hging : i + 1 ≤ activeSegIdx (s :: rest) t := by
      show i + 1 ≤ activeSegIdxAux 0 rest t
      omega
    exact ⟨hging, by omega⟩

/-- Witness for C7 on the shipped segment table: at MET `6300` (start of
the "Coasting" segment, index 2) the active segment is at least index 2
and in particular not the "Liftoff" segment (index 1). -/
theorem scheduler_segment_switch_witness :
    2 ≤ activeSegIdx missionSegments 6300 ∧ activeSegIdx missionSegments 6300 ≠ 1 := by
  have hs : sortedSegments missionSegments := by
    simp only [sortedSegments, missionSegments, List.chain'_cons, List.chain'_singleton]
    norm_num
  exact scheduler_segment_switch missionSegments hs 1 (by norm_num [missionSegments]) 6300
    (by norm_num [missionSegments])

/-! ## C8: impulsive maneuvers -/

/-- One row of `MRSmissionData.maneuverSettings`:
`{frame, dx, dy, dz, args, planet}` (delta-v components in km/s, interpreted
as frame-axis components of the named frame). -/
structure ManeuverSetting where
  frame : String
  dx : ℚ
  dy : ℚ
  dz : ℚ
  args : List ℚ
  planet : String
  deriving DecidableEq, Repr

/-- `MRSmissionData.maneuverSettings`, embedded verbatim from the mission
file. -/
def maneuverSettings : List ManeuverSetting :=
  [ ⟨"VNB", 0.230, 0, 0, [0, 0], "Earth"⟩,
    ⟨"VNB", 1.676, 0, 0, [0, 0], "Earth"⟩ ]

/-- The kinematic state owned by the Integrator Driver:
`{position, velocity}` in the inertial frame. -/
structure StateVec where
  pos : Vec3
  vel : Vec3
  deriving DecidableEq, Repr

/-- Modelled from the spec: the delta-v of a maneuver resolved in its
frame's orthonormal basis `(bV, bN, bB)` at the current instant, with
`(dx, dy, dz)` interpreted as frame-axis components rather than angles
(§4.6). -/
def resolveManeuverDv (bV bN bB : Vec3) (m : ManeuverSetting) : Vec3 :=
  m.dx • bV + m.dy • bN + m.dz • bB

/-- Modelled from the spec: the Scheduler's impulsive maneuver application
(§4.6), absent from the sources — the resolved delta-v is added
instantaneously to the velocity vector, the position vector being left
unchanged. -/
def applyImpulsiveManeuver (s : StateVec) (dv : Vec3) : StateVec :=
  ⟨s.pos, s.vel + dv⟩

/-- C8: applying an impulsive maneuver leaves the position vector unchanged
and adds to the velocity vector exactly the delta-v resolved as frame-axis
components `dx·V + dy·N + dz·B`; for the two shipped Artemis I maneuvers
(both `(dx, 0, 0)` in frame VNB) the velocity change is `dx` times the
frame's V axis — along the velocity direction when `bV` is the unit
velocity vector. -/
theorem impulsive_maneuver_spec :
    (∀ (s : StateVec) (dv : Vec3), (applyImpulsiveManeuver s dv).pos = s.pos) ∧
    (∀ (s : StateVec) (bV bN bB : Vec3) (m : ManeuverSetting),
      (applyImpulsiveManeuver s (resolveManeuverDv bV bN bB m)).vel =
        s.vel + (m.dx • bV + m.dy • bN + m.dz • bB)) ∧
    (∀ (s : StateVec) (bV bN bB : Vec3) (m : ManeuverSetting), m ∈ maneuverSettings →
      (applyImpulsiveManeuver s (resolveManeuverDv bV bN bB m)).vel =
        s.vel + m.dx • bV) := by
  refine ⟨fun s dv => rfl, fun s bV bN bB m => rfl, ?_⟩
  intro s bV bN bB m hm
  have hdy : m.dy = 0 ∧ m.dz = 0 := by
    simp only [maneuverSettings, List.mem_cons, List.not_mem_nil, or_false] at hm
    rcases hm with h | h <;> rw [h] <;> exact ⟨rfl, rfl⟩
  show s.vel + (m.dx • bV + m.dy • bN + m.dz • bB) = s.vel + m.dx • bV
  rw [hdy.1, hdy.2, vec3_zero_smul, vec3_zero_smul, vec3_add_zero, vec3_add_zero]

/-- Witness for C8 at the first shipped maneuver ("Spring separation from
ICPS", `(0.230, 0, 0)` km/s in VNB) and a concrete state and basis. -/
theorem impulsive_maneuver_spec_witness :
    (applyImpulsiveManeuver ⟨⟨1, 2, 3⟩, ⟨4, 5, 6⟩⟩
        (resolveManeuverDv ⟨1, 0, 0⟩ ⟨0, 1, 0⟩ ⟨0, 0, 1⟩
          ⟨"VNB", 0.230, 0, 0, [0, 0], "Earth"⟩)).pos = ⟨1, 2, 3⟩ ∧
    (applyImpulsiveManeuver ⟨⟨1, 2, 3⟩, ⟨4, 5, 6⟩⟩
        (resolveManeuverDv ⟨1, 0, 0⟩ ⟨0, 1, 0⟩ ⟨0, 0, 1⟩
          ⟨"VNB", 0.230, 0, 0, [0, 0], "Earth"⟩)).vel = ⟨4.23, 5, 6⟩ := by
  constructor
  · exact impulsive_maneuver_spec.1 ⟨⟨1, 2, 3⟩, ⟨4, 5, 6⟩⟩ _
  · refine (impulsive_maneuver_spec.2.2 ⟨⟨1, 2, 3⟩, ⟨4, 5, 6⟩⟩ ⟨1, 0, 0⟩ ⟨0, 1, 0⟩ ⟨0, 0, 1⟩
      ⟨"VNB", 0.230, 0, 0, [0, 0], "Earth"⟩ (List.mem_cons_self _ _)).trans ?_
    show Vec3.mk (4 + 0.230 * 1) (5 + 0.230 * 0) (6 + 0.230 * 0) = Vec3.mk 4.23 5 6
    norm_num

/-! ## C9: the no-frame branch of the Frame Resolver -/

/-- Modelled from the spec: the Frame Resolver's no-frame branch (§4.1) —
the output equals the current inertial velocity direction, the elevation
and heading angle values being ignored.  The engine normalises by the speed
`|v|`; here the speed is supplied with its defining properties
(`speed > 0`, `speed² = ⟨v, v⟩`). -/
def resolveFnone (elevAngle headAngle : ℚ) (vel : Vec3) (speed : ℚ) : Vec3 :=
  (1 / speed) • vel

/-- C9: for every state with nonzero velocity, resolving a no-frame
guidance entry yields a unit vector parallel to the current inertial
velocity direction (positive multiple of the velocity, recovering the
velocity when rescaled by the speed), for any supplied angle values. -/
theorem noframe_resolve_spec (vel : Vec3) (speed eA hA eB hB : ℚ)
    (hpos : 0 < speed) (hsq : dot vel vel = speed ^ 2) :
    resolveFnone eA hA vel speed = resolveFnone eB hB vel speed ∧
    dot (resolveFnone eA hA vel speed) (resolveFnone eA hA vel speed) = 1 ∧
    speed • resolveFnone eA hA vel speed = vel ∧
    (∃ c : ℚ, 0 < c ∧ resolveFnone eA hA vel speed = c • vel) := by
  have hs : speed ≠ 0 := ne_of_gt hpos
  have hdot : vel.x * vel.x + vel.y * vel.y + vel.z * vel.z = speed ^ 2 := hsq
  refine ⟨rfl, ?_, ?_, ⟨1 / speed, one_div_pos.mpr hpos, rfl⟩⟩
  · show (1 / speed * vel.x) * (1 / speed * vel.x) + (1 / speed * vel.y) * (1 / speed * vel.y)
      + (1 / speed * vel.z) * (1 / speed * vel.z) = 1
    field_simp
    linear_combination hdot
  · show Vec3.mk (speed * (1 / speed * vel.x)) (speed * (1 / speed * vel.y))
      (speed * (1 / speed * vel.z)) = vel
    cases vel with
    | mk a b c =>
      field_simp

/-- Witness for C9 at velocity `(3, 4, 0)` (speed `5`) and two different
pairs of angle values. -/
theorem noframe_resolve_spec_witness :
    resolveFnone 1 2 ⟨3, 4, 0⟩ 5 = resolveFnone 30 40 ⟨3, 4, 0⟩ 5 ∧
    dot (resolveFnone 1 2 ⟨3, 4, 0⟩ 5) (resolveFnone 1 2 ⟨3, 4, 0⟩ 5) = 1 ∧
    (5 : ℚ) • resolveFnone 1 2 ⟨3, 4, 0⟩ 5 = ⟨3, 4, 0⟩ := by
  have h := noframe_resolve_spec ⟨3, 4, 0⟩ 5 1 2 30 40 (by norm_num)
    (by norm_num [dot])
  exact ⟨h.1, h.2.1, h.2.2.1⟩

/-! ## C10: exclusive-frame invariant of the shipped guidance tables -/

/-- Frame ID of the elevation track at MET `t`. -/
def elevFrameAt (t : ℚ) : ℕ := (lookupTrack gElevTab t).1

/-- Frame ID of the heading track at MET `t`. -/
def headFrameAt (t : ℚ) : ℕ := (lookupTrack gHeadTab t).1

lemma entryValue_fst (a b : GEntry) (t : ℚ) : (entryValue a b t).1 = a.frameID := by
  unfold entryValue
  split_ifs <;> rfl

/-- The frame component of the lookup: the active entry's frameID
(interpolation affects only the angle). -/
def frameAtFrom : GEntry → List GEntry → ℚ → ℕ
  | e, [], _ => e.frameID
  | e, e2 :: rest, t => if t < e2.met then e.frameID else frameAtFrom e2 rest t

lemma gLookup_fst (e : GEntry) (rest : List GEntry) (t : ℚ) :
    (gLookup e rest t).1 = frameAtFrom e rest t := by
  induction rest generalizing e with
  | nil => rfl
  | cons e2 rest ih =>
    show (if t < e2.met then if e.met ≤ t then entryValue e e2 t else (e.frameID, e.angle)
        else gLookup e2 rest t).1 = if t < e2.met then e.frameID else frameAtFrom e2 rest t
    split_ifs with h1 h2
    · exact entryValue_fst e e2 t
    · rfl
    · exact ih e2

set_option maxHeartbeats 1000000 in
lemma elevFrameAt_eq (t : ℚ) :
    elevFrameAt t =
      if t < 16 then F_Launch_ENU_abs
      else if t < 132 then F_EFvel_Earth_ENU_delta
      else if t < 485 then F_Launch_ENU_abs
      else if t < 5000 then F_SFvel_Earth_ENU_delta
      else if t < 6293 then F_VNB_abs
      else F_none := by
  simp only [elevFrameAt, gElevTab, lookupTrack]
  rw [gLookup_fst]
  simp only [frameAtFrom]
  split_ifs <;> first | rfl | linarith

set_option maxHeartbeats 1000000 in
lemma headFrameAt_eq (t : ℚ) :
    headFrameAt t =
      if t < 16 then F_Launch_ENU_abs
      else if t < 132 then F_EFvel_Earth_ENU_delta
      else if t < 5000 then F_SFvel_Earth_ENU_delta
      else if t < 6293 then F_VNB_abs
      else F_none := by
  simp only [headFrameAt, gHeadTab, lookupTrack]
  rw [gLookup_fst]
  simp only [frameAtFrom]
  split_ifs <;> first | rfl | linarith

/-- C10: the shipped Artemis I guidance configuration satisfies the
exclusive-frame pairing invariant at every MET — whenever one of the two
tracks is in an exclusive frame, the other track is in the same frame;
both tracks are in `F_VNB_abs` exactly on `[5000, 6293)` and in `F_none`
from MET `6293` on, and before MET `5000` neither track uses an exclusive
frame. -/
theorem shipped_guidance_exclusive_invariant :
    (∀ t : ℚ,
      exclusiveFrame (elevFrameAt t) = true ∨ exclusiveFrame (headFrameAt t) = true →
      elevFrameAt t = headFrameAt t) ∧
    (∀ t : ℚ, 5000 ≤ t → t < 6293 →
      elevFrameAt t = F_VNB_abs ∧ headFrameAt t = F_VNB_abs) ∧
    (∀ t : ℚ, 6293 ≤ t → elevFrameAt t = F_none ∧ headFrameAt t = F_none) ∧
    (∀ t : ℚ, t < 5000 →
      exclusiveFrame (elevFrameAt t) = false ∧ exclusiveFrame (headFrameAt t) = false) := by
  refine ⟨?_, ?_, ?_, ?_⟩
  · intro t h
    rw [elevFrameAt_eq, headFrameAt_eq] at h ⊢
    split_ifs at h ⊢ <;>
      first
        | rfl
        | (exfalso; linarith)
        | (rcases h with h | h <;>
            simp [exclusiveFrame, staticFrame, F_Launch_ENU_abs, F_EFvel_Earth_ENU_delta,
              F_SFvel_Earth_ENU_delta, F_GCRF_abs, F_VUW_abs, F_VNB_abs, F_none,
              F_SM0_abs, F_SM9_abs] at h)
  · intro t h1 h2
    rw [elevFrameAt_eq, headFrameAt_eq]
    split_ifs <;> first | exact ⟨rfl, rfl⟩ | linarith
  · intro t h1
    rw [elevFrameAt_eq, headFrameAt_eq]
    split_ifs <;> first | exact ⟨rfl, rfl⟩ | linarith
  · intro t h1
    rw [elevFrameAt_eq, headFrameAt_eq]
    split_ifs <;>
      first
        | exact ⟨rfl, rfl⟩
        | linarith
        | (refine ⟨?_, ?_⟩ <;> rfl)

/-- Witness for C10: concrete METs in the VNB span, the no-frame span, and
the launch phase. -/
theorem shipped_guidance_exclusive_invariant_witness :
    elevFrameAt 5500 = headFrameAt 5500 ∧
    elevFrameAt 5500 = F_VNB_abs ∧ headFrameAt 5500 = F_VNB_abs ∧
    elevFrameAt 7000 = F_none ∧ headFrameAt 7000 = F_none ∧
    exclusiveFrame (elevFrameAt 300) = false := by
  have h1 := shipped_guidance_exclusive_invariant.2.1 5500 (by norm_num) (by norm_num)
  have h2 := shipped_guidance_exclusive_invariant.2.2.1 7000 (by norm_num)
  have h3 := shipped_guidance_exclusive_invariant.2.2.2 300 (by norm_num)
  have h0 := shipped_guidance_exclusive_invariant.1 5500
    (Or.inl (by rw [h1.1]; rfl))
  exact ⟨h0, h1.1, h1.2, h2.1, h2.2, h3.1⟩

end MRS
